import Mathlib

/-!
Verification development for the SkribbLoL game-service room/game state
machine.  The definitions below are shallow embeddings of the JavaScript
source (`src/socket-handlers/RoomSocketHandler.js`, `src/MessageBus.js`,
the word bank in `src/unnamed/part_003`, and the earlier handler revision
in `src/unnamed/part_001`).  JavaScript `null`/`undefined` fields become
`Option`, numbers become `Int`, the Redis read-modify-write cycle becomes
a pure function from the fetched `Room` to the persisted `Room`, and a
guard clause that `socket.emit('error', ...)`s and returns becomes an
`Except` error result (errors are delivered to the acting connection only
and nothing is persisted).
-/

namespace GameService

/-- A member of a room, as stored in the serialized `room.users` array. -/
structure Player where
  id : String
  nickname : String
  isHost : Bool
  score : Int
  deriving Repr, DecidableEq

/-- The Room aggregate, as serialized under `room:{roomCode}` in Redis.
Fields that the JavaScript code sets to `null` are `Option`s;
`gamePhase` is one of the literal strings used by the source
(`waiting`, `word-selection`, `drawing`, `game-end`). -/
structure Room where
  users : List Player
  gameStarted : Bool
  gamePhase : String
  rounds : Int
  currentRound : Int
  currentDrawer : Option String
  currentWord : Option String
  wordOptions : Option (List String)
  roundStartTime : Option Int
  roundEndTime : Option Int
  maxPlayers : Int
  roundDuration : Int
  deriving Repr, DecidableEq

/-! ## Word bank (`src/unnamed/part_003`) -/

/-- `WORDS.easy` of the word bank. -/
def wordsEasy : List String :=
  ["apple", "book", "car", "dog", "eye", "fish", "gun", "hat", "ice", "jam",
   "key", "lamp", "moon", "nose", "owl", "pen", "queen", "rain", "sun", "tree",
   "umbrella", "van", "water", "box", "yard", "zebra", "ball", "cat", "door", "egg",
   "fire", "glass", "hand", "island", "juice", "kite", "leaf", "mouse", "nail", "ocean",
   "pizza", "rabbit", "star", "table", "up", "violin", "window", "x-ray", "yellow", "zoo",
   "head", "arm", "leg", "foot", "hair", "ear", "mouth", "tooth", "finger", "knee",
   "bread", "cheese", "milk", "cake", "cookie", "banana", "orange", "grape", "chicken", "rice",
   "bird", "bear", "lion", "tiger", "elephant", "horse", "cow", "pig", "sheep", "duck"]

/-- `WORDS.medium` of the word bank. -/
def wordsMedium : List String :=
  ["running", "jumping", "swimming", "dancing", "singing", "cooking", "reading", "writing", "sleeping", "laughing",
   "crying", "walking", "flying", "climbing", "driving", "painting", "drawing", "thinking", "dreaming", "working",
   "telescope", "computer", "bicycle", "airplane", "helicopter", "submarine", "castle", "bridge", "lighthouse", "windmill",
   "robot", "dinosaur", "skeleton", "volcano", "rainbow", "tornado", "spaceship", "treasure", "crown", "sword",
   "birthday", "vacation", "school", "hospital", "restaurant", "library", "museum", "garden", "forest", "beach",
   "mountain", "desert", "jungle", "city", "village", "farm", "park", "circus", "theater", "concert",
   "doctor", "teacher", "police", "firefighter", "chef", "artist", "musician", "dancer", "pilot", "sailor"]

/-- `WORDS.hard` of the word bank. -/
def wordsHard : List String :=
  ["democracy", "philosophy", "psychology", "evolution", "gravity", "electricity", "magnetism", "photosynthesis", "ecosystem", "civilization",
   "architecture", "archaeology", "astronomy", "meteorology", "geography", "biography", "mythology", "technology", "laboratory", "observatory",
   "nostalgia", "melancholy", "euphoria", "anxiety", "serenity", "confusion", "determination", "curiosity", "jealousy", "confidence",
   "meditation", "negotiation", "investigation", "celebration", "communication", "transportation", "organization", "imagination", "inspiration", "innovation",
   "friendship", "leadership", "championship", "relationship", "partnership", "scholarship", "citizenship", "ownership", "membership", "apprenticeship"]

/-- `getWordDifficulty(word)`: first matching tier wins, else `"unknown"`. -/
def getWordDifficulty (word : String) : String :=
  if wordsEasy.contains word then "easy"
  else if wordsMedium.contains word then "medium"
  else if wordsHard.contains word then "hard"
  else "unknown"

/-- `calculateWordPoints(word)`: 10/15/25 points for easy/medium/hard,
10 for an unknown word (the `default` arm of the source's `switch`). -/
def calculateWordPoints (word : String) : Int :=
  let difficulty := getWordDifficulty word
  if difficulty == "easy" then 10
  else if difficulty == "medium" then 15
  else if difficulty == "hard" then 25
  else 10

/-! ## String normalization used by the guess check

The source compares `guess.toLowerCase().trim() === room.currentWord.toLowerCase()`.
JavaScript's `toLowerCase`/`trim` are embedded character-wise (ASCII-faithful;
all words in the bank and all inputs in the claims are ASCII). -/

/-- JavaScript `String.prototype.toLowerCase`, character-wise. -/
def jsToLower (s : String) : String := ⟨s.data.map Char.toLower⟩

/-- JavaScript `String.prototype.trim`: strip leading and trailing whitespace. -/
def jsTrim (s : String) : String :=
  ⟨((s.data.dropWhile Char.isWhitespace).reverse.dropWhile Char.isWhitespace).reverse⟩

/-! ## Final rankings (`calculateFinalRankings`) -/

/-- Comparator of `users.sort((a, b) => b.score - a.score)`:
`a` may come before `b` iff `b.score ≤ a.score` (descending). -/
def scoreDescRel (a b : Player) : Prop := b.score ≤ a.score

instance : DecidableRel scoreDescRel := fun a b => inferInstanceAs (Decidable (b.score ≤ a.score))

instance : IsTotal Player scoreDescRel := ⟨fun a b => (le_total b.score a.score).imp id id⟩

instance : IsTrans Player scoreDescRel := ⟨fun _ _ _ hab hbc => le_trans hbc hab⟩

/-- `users.sort((a, b) => b.score - a.score)`: the stable descending sort by
score that `Array.prototype.sort` performs (stable per ES2019).  The source
sorts **in place**, so every caller's `room.users` aliases this result. -/
def sortByScoreDesc (users : List Player) : List Player :=
  users.insertionSort scoreDescRel

/-- Result object of `calculateFinalRankings`. -/
structure Rankings where
  winners : List Player
  finalScores : List Player
  message : String
  deriving Repr, DecidableEq

/-- `calculateFinalRankings(users)`: sort by score descending, group by
score; the group at the highest score are the co-winners.  On the empty
list the source throws (`winners` is `undefined`); this embedding returns
a junk value there and every theorem about it assumes a non-empty input. -/
def calculateFinalRankings (users : List Player) : Rankings :=
  let sortedUsers := sortByScoreDesc users
  let highestScore := match sortedUsers with
    | [] => 0
    | u :: _ => u.score
  let winners := sortedUsers.filter (fun u => u.score == highestScore)
  let winnerNames := String.intercalate ", " (winners.map (fun w => w.nickname))
  let firstNick := match winners with
    | [] => ""
    | w :: _ => w.nickname
  let message :=
    if winners.length == 1 then
      s!"Game ended! Winner: {firstNick} with {highestScore} points!"
    else if winners.length == users.length then
      s!"Game ended! It's a tie! Everyone scored {highestScore} points: {winnerNames}"
    else
      s!"Game ended! It's a tie for 1st place with {highestScore} points: {winnerNames}"
  { winners := winners, finalScores := sortedUsers, message := message }

/-! ## Errors

Each guard clause in the source emits a specific `error{message}` to the
acting socket only and returns without persisting anything.  The error
messages are mapped to constructors as follows:
`"Only the host can start the game"` / `"Only the host can restart the game"`
/ `"Only the current drawer can select a word"` ↦ `notAuthorized`;
`"Invalid word selection"` ↦ `invalidSelection`;
`"Need at least 2 players to start"` ↦ `insufficientPlayers`;
`"Too many players. Max allowed: ..."` ↦ `tooManyPlayers`;
`"Room not found"` ↦ `roomNotFound`; `"Not in a room"` ↦ `notInRoom`;
a thrown exception caught by the handler's `catch` ↦ `serverError`. -/

inductive GameError where
  | notAuthorized
  | invalidSelection
  | insufficientPlayers
  | tooManyPlayers
  | roomNotFound
  | notInRoom
  | serverError
  deriving Repr, DecidableEq

instance {ε α : Type} [DecidableEq ε] [DecidableEq α] : DecidableEq (Except ε α) :=
  fun x y =>
    match x, y with
    | .ok a, .ok b =>
      if h : a = b then .isTrue (by rw [h]) else .isFalse (by simp [h])
    | .error a, .error b =>
      if h : a = b then .isTrue (by rw [h]) else .isFalse (by simp [h])
    | .ok _, .error _ => .isFalse (by simp)
    | .error _, .ok _ => .isFalse (by simp)

/-! ## StartGame (`handleStartGame`) -/

/-- The `data` payload of `start-game`; absent fields are `none`.
JavaScript defaulting is `data.rounds || 3`, so an explicit `0` also
falls back to the default (`0` is falsy). -/
structure StartData where
  rounds : Option Int
  maxPlayers : Option Int
  roundDuration : Option Int
  deriving Repr, DecidableEq

/-- `v || d` for a possibly-absent numeric setting. -/
def jsNumOr (v : Option Int) (d : Int) : Int :=
  match v with
  | none => d
  | some x => if x == 0 then d else x

/-- `handleStartGame` on an already-fetched room.  `randomIndex` stands for
`Math.floor(Math.random() * room.users.length)`, the randomly chosen index
of the first drawer.  Guard order follows the source: host check, then
minimum players, then maximum players. -/
def handleStartGame (room : Room) (userId : String) (data : StartData)
    (randomIndex : Nat) : Except GameError Room :=
  match room.users.find? (fun u => u.id == userId) with
  | none => .error .notAuthorized
  | some user =>
    if !user.isHost then .error .notAuthorized
    else
      let sRounds := jsNumOr data.rounds 3
      let sMaxPlayers := jsNumOr data.maxPlayers 10
      let sRoundDuration := jsNumOr data.roundDuration 60
      if room.users.length < 2 then .error .insufficientPlayers
      else if sMaxPlayers < (room.users.length : Int) then .error .tooManyPlayers
      else
        let users' := room.users.map (fun u => { u with score := 0 })
        match users'.get? randomIndex with
        | none => .error .serverError
        | some firstDrawer =>
          .ok { room with
                users := users',
                gameStarted := true,
                rounds := sRounds,
                maxPlayers := sMaxPlayers,
                roundDuration := sRoundDuration,
                currentRound := 1,
                currentDrawer := some firstDrawer.id,
                currentWord := none,
                wordOptions := none,
                roundStartTime := none,
                roundEndTime := none,
                gamePhase := "word-selection" }

/-- The room actually persisted to Redis by `handleStartGame`: on any guard
failure nothing is written and the stored room is the fetched one. -/
def startGameStored (room : Room) (userId : String) (data : StartData)
    (randomIndex : Nat) : Room :=
  match handleStartGame room userId data randomIndex with
  | .ok r => r
  | .error _ => room

/-! ## SelectWord (`handleSelectWord`) -/

/-- `handleSelectWord` on an already-fetched room.  `now` stands for
`Date.now()`.  Guard order follows the source: falsy `selectedWord`,
then drawer identity, then membership of the word in `wordOptions`
(exact, case-sensitive `includes`). -/
def handleSelectWord (room : Room) (userId : String) (selectedWord : String)
    (now : Int) : Except GameError Room :=
  if selectedWord == "" then .error .invalidSelection
  else if !(room.currentDrawer == some userId) then .error .notAuthorized
  else
    match room.wordOptions with
    | none => .error .invalidSelection
    | some opts =>
      if !(opts.contains selectedWord) then .error .invalidSelection
      else
        .ok { room with
              currentWord := some selectedWord,
              gamePhase := "drawing",
              roundStartTime := some now,
              roundEndTime := some (now + room.roundDuration * 1000),
              wordOptions := none }

/-- The room actually persisted to Redis by `handleSelectWord`. -/
def selectWordStored (room : Room) (userId : String) (selectedWord : String)
    (now : Int) : Room :=
  match handleSelectWord room userId selectedWord now with
  | .ok r => r
  | .error _ => room

/-! ## Correct-guess scoring (`handleCorrectGuess`) -/

/-- `find` the first user with the given id and add `delta` to its score
(the source mutates the object returned by `Array.prototype.find`); a
missing id leaves the list unchanged (`if (drawer) drawer.score += ...`). -/
def addScoreToFirst (users : List Player) (userId : String) (delta : Int) :
    List Player :=
  match users with
  | [] => []
  | u :: rest =>
    if u.id == userId then { u with score := u.score + delta } :: rest
    else u :: addScoreToFirst rest userId delta

/-- `handleCorrectGuess(roomCode, userId, guess)` on an already-fetched
room: awards `calculateWordPoints(currentWord)` to the guesser and
`Math.floor(points / 2)` to the drawer (if present), then persists.
Returns `none` when the guesser is not in `room.users` (the source
returns without writing).  A `null` `currentWord` scores as an unknown
word (10 points), exactly as `getWordDifficulty(null)` does. -/
def handleCorrectGuess (room : Room) (userId : String) : Option Room :=
  match room.users.find? (fun u => u.id == userId) with
  | none => none
  | some _ =>
    let points := match room.currentWord with
      | some w => calculateWordPoints w
      | none => 10
    let drawerPoints := points / 2
    let users1 := addScoreToFirst room.users userId points
    let users2 := match room.currentDrawer with
      | some drawerId => addScoreToFirst users1 drawerId drawerPoints
      | none => users1
    some { room with users := users2 }

/-- Score of the first user with a given id, if any. -/
def scoreOf (users : List Player) (userId : String) : Option Int :=
  (users.find? (fun u => u.id == userId)).map (fun u => u.score)

/-! ## EndRound (`handleEndRound`) -/

/-- What `handleEndRound` broadcast besides the updated room. -/
inductive EndRoundOutcome where
  | gameEnded (rankings : Rankings)
  | newRound (nextDrawerId : String)
  deriving Repr, DecidableEq

/-- `handleEndRound` on an already-fetched room.  The final-round branch
(`currentRound >= rounds`) transitions to `game-end` and computes final
rankings — `calculateFinalRankings` sorts `room.users` **in place**, so
the persisted room carries the sorted list.  The non-final branch
increments the round, clears the word state and rotates the drawer:
`findIndex` is `-1` when the current drawer is missing, so the next index
is `(-1 + 1) % length = 0`.  Returns `none` when the source would throw
(indexing an empty `users` array) and therefore persist nothing. -/
def handleEndRound (room : Room) : Option (Room × EndRoundOutcome) :=
  if room.rounds ≤ room.currentRound then
    let rankings := calculateFinalRankings room.users
    some ({ room with
            gamePhase := "game-end",
            gameStarted := false,
            users := rankings.finalScores }, .gameEnded rankings)
  else
    let currentDrawerIndex : Int :=
      match room.users.findIdx? (fun u => room.currentDrawer == some u.id) with
      | some i => (i : Int)
      | none => -1
    let nextDrawerIndex : Nat := (currentDrawerIndex + 1).toNat % room.users.length
    match room.users.get? nextDrawerIndex with
    | none => none
    | some nextDrawer =>
      some ({ room with
              currentRound := room.currentRound + 1,
              gamePhase := "word-selection",
              currentWord := none,
              wordOptions := none,
              roundStartTime := none,
              roundEndTime := none,
              currentDrawer := some nextDrawer.id }, .newRound nextDrawer.id)

/-! ## RemovePlayer (`handleLeaveRoom`) -/

/-- Outcome of `handleLeaveRoom`: nothing happened (user or room missing),
the room was deleted (`redisClient.del`), the game was force-ended with
rankings broadcast, or a plain departure was persisted. -/
inductive LeaveResult where
  | noop
  | deleted
  | forcedEnd (stored : Room) (rankings : Rankings)
  | left (stored : Room)
  deriving Repr, DecidableEq

/-- `findIndex` + `splice(index, 1)`: remove the first element satisfying
`p`, returning it and the remainder. -/
def removeFirst (p : Player → Bool) : List Player → Option (Player × List Player)
  | [] => none
  | x :: xs =>
    if p x then some (x, xs)
    else (removeFirst p xs).map (fun r => (r.1, x :: r.2))

/-- The sentinel winner `{ nickname: 'No one', score: 0 }` used when no
players remain (the JavaScript object literal has no `id`/`isHost`
fields; they are defaulted here). -/
def noOneSentinel : Player := { id := "", nickname := "No one", isHost := false, score := 0 }

/-- `if (user.isHost && room.users.length > 0) room.users[0].isHost = true`:
promote the first remaining player to host when the departing player was
the host. -/
def promoteHost (user : Player) (remaining : List Player) : List Player :=
  if user.isHost then
    match remaining with
    | [] => []
    | u :: rest => { u with isHost := true } :: rest
  else remaining

/-- The single player left behind when one of two players departs: the
stayer, promoted to host when the leaver was the host. -/
def promotedRemainder (leaver stayer : Player) : Player :=
  if leaver.isHost then { stayer with isHost := true } else stayer

/-- The field resets of the forced game-end in `handleLeaveRoom`:
`gameStarted=false`, `gamePhase='game-end'`, drawer/word/options and the
round timestamps cleared, `users` replaced by the remaining players. -/
def clearedGameEnd (room : Room) (remaining : List Player) : Room :=
  { room with
    users := remaining,
    gameStarted := false,
    gamePhase := "game-end",
    currentDrawer := none,
    currentWord := none,
    wordOptions := none,
    roundStartTime := none,
    roundEndTime := none }

/-- `handleLeaveRoom` on an already-fetched room: remove the user, delete
the room if it became empty, promote `users[0]` to host if the host left,
and force an immediate game end when the game was active and fewer than 2
players remain — ranking the *remaining* players when any remain
(`calculateFinalRankings` again sorts the stored `users` in place), and
the `No one` sentinel otherwise. -/
def handleLeaveRoom (room : Room) (userId : String) : LeaveResult :=
  match removeFirst (fun u => u.id == userId) room.users with
  | none => .noop
  | some (user, remaining) =>
    if remaining.isEmpty then .deleted
    else
      let remaining2 := promoteHost user remaining
      if room.gameStarted && remaining2.length < 2 then
        let cleared := clearedGameEnd room remaining2
        if 0 < remaining2.length then
          let rankings := calculateFinalRankings remaining2
          .forcedEnd { cleared with users := rankings.finalScores } rankings
        else
          .forcedEnd cleared
            { winners := [noOneSentinel],
              finalScores := [],
              message := "Game ended due to insufficient players. No winner." }
      else
        .left { room with users := remaining2 }

/-! ## RestartGame (`handleRestartGame`) -/

/-- `handleRestartGame` on an already-fetched room: host-only guard (the
only guard — the current phase is not checked), then reset every game
field to its default and zero every score. -/
def handleRestartGame (room : Room) (userId : String) : Except GameError Room :=
  match room.users.find? (fun u => u.id == userId) with
  | none => .error .notAuthorized
  | some user =>
    if !user.isHost then .error .notAuthorized
    else
      .ok { room with
            gameStarted := false,
            gamePhase := "waiting",
            currentRound := 0,
            rounds := 3,
            currentDrawer := none,
            currentWord := none,
            wordOptions := none,
            roundStartTime := none,
            roundEndTime := none,
            maxPlayers := 10,
            roundDuration := 60,
            users := room.users.map (fun u => { u with score := 0 }) }

/-! ## Guess checking (`MessageBus.checkGuess` and `handleGuessWord`) -/

/-- The `{ isGameActive, isCorrect }` object returned by
`MessageBus.checkGuess`. -/
structure GuessCheck where
  isGameActive : Bool
  isCorrect : Bool
  deriving Repr, DecidableEq

/-- `MessageBus.checkGuess` on an already-fetched room: inactive unless
`gameStarted && gamePhase === 'drawing'`; the drawer may not guess;
otherwise `guess.toLowerCase().trim() === room.currentWord.toLowerCase()`
(only the guess is trimmed).  A `null` `currentWord` makes the source
throw inside its `try`, returning `{false, false}`. -/
def checkGuess (room : Room) (userId : String) (guess : String) : GuessCheck :=
  if !(room.gameStarted && room.gamePhase == "drawing") then ⟨false, false⟩
  else if room.currentDrawer == some userId then ⟨true, false⟩
  else
    match room.currentWord with
    | none => ⟨false, false⟩
    | some w => ⟨true, jsTrim (jsToLower guess) == jsToLower w⟩

/-- Outcome of `handleGuessWord` (handler revision in
`src/unnamed/part_001`): an early return with no effect, a correct guess
(scores updated and persisted, `correct-guess` broadcast), or an
incorrect guess relayed as a chat message. -/
inductive GuessOutcome where
  | noop
  | correct (stored : Room)
  | chat
  deriving Repr, DecidableEq

/-- `handleGuessWord` on an already-fetched room.  Early returns: falsy
guess, guesser is the drawer or phase is not `drawing`, guesser not in
the room.  A correct guess runs the same scoring as `handleCorrectGuess`.
A `null` `currentWord` makes the source throw (caught, no effect). -/
def handleGuessWord (room : Room) (userId : String) (guess : String) :
    GuessOutcome :=
  if guess == "" then .noop
  else if room.currentDrawer == some userId || !(room.gamePhase == "drawing") then .noop
  else
    match room.users.find? (fun u => u.id == userId) with
    | none => .noop
    | some _ =>
      match room.currentWord with
      | none => .noop
      | some w =>
        if jsTrim (jsToLower guess) == jsToLower w then
          let points := calculateWordPoints w
          let drawerPoints := points / 2
          let users1 := addScoreToFirst room.users userId points
          let users2 := match room.currentDrawer with
            | some drawerId => addScoreToFirst users1 drawerId drawerPoints
            | none => users1
          .correct { room with users := users2 }
        else .chat

/-- The spec's reading of the correctness test, for comparison with the
code: "case-insensitive, whitespace-trimmed equality against
`currentWord`" — both operands lowercased and trimmed. -/
def specGuessCorrect (guess : String) (word : String) : Bool :=
  jsTrim (jsToLower guess) == jsTrim (jsToLower word)

/-! ## Helper lemmas -/

/-- The sorted list is a permutation of the input. -/
lemma sortByScoreDesc_perm (users : List Player) :
    (sortByScoreDesc users).Perm users :=
  List.perm_insertionSort scoreDescRel users

/-- The sorted list is sorted by descending score. -/
lemma sortByScoreDesc_sorted (users : List Player) :
    (sortByScoreDesc users).Sorted scoreDescRel :=
  List.sorted_insertionSort scoreDescRel users

/-- In a descending-sorted non-empty list the head score bounds every
member's score. -/
lemma head_score_max {u0 : Player} {rest : List Player}
    (hs : List.Sorted scoreDescRel (u0 :: rest)) :
    ∀ q ∈ u0 :: rest, q.score ≤ u0.score := by
  intro q hq
  rcases List.mem_cons.mp hq with h | h
  · exact le_of_eq (by rw [h])
  · exact List.rel_of_sorted_cons hs q h

/-- `finalScores` of the rankings is definitionally the sorted users. -/
lemma calculateFinalRankings_finalScores (users : List Player) :
    (calculateFinalRankings users).finalScores = sortByScoreDesc users := rfl

/-- After adding `δ` to the first user with id `uid`, looking that id up
finds the same user with the increased score. -/
lemma find?_addScoreToFirst_self {l : List Player} {uid : String} {x : Player} (δ : Int)
    (h : l.find? (fun u => u.id == uid) = some x) :
    (addScoreToFirst l uid δ).find? (fun u => u.id == uid)
      = some { x with score := x.score + δ } := by
  induction l with
  | nil => cases h
  | cons y ys ih =>
    by_cases hy : (y.id == uid) = true
    · simp only [List.find?_cons, hy, if_true] at h
      obtain rfl : y = x := by injection h
      simp [addScoreToFirst, hy, List.find?_cons]
    · simp only [List.find?_cons, hy] at h
      simp [addScoreToFirst, hy, List.find?_cons, ih h]

/-- Adding score to the first user with id `uid` does not affect lookups
of a different id. -/
lemma find?_addScoreToFirst_ne {l : List Player} {uid uid' : String}
    (hne : uid' ≠ uid) (δ : Int) :
    (addScoreToFirst l uid δ).find? (fun u => u.id == uid')
      = l.find? (fun u => u.id == uid') := by
  induction l with
  | nil => rfl
  | cons y ys ih =>
    by_cases hy : (y.id == uid) = true
    · have hy' : (y.id == uid') = false := by
        rw [beq_iff_eq] at hy
        simp [hy, beq_iff_eq]
        exact fun hc => hne (hc ▸ hy ▸ rfl)
      simp [addScoreToFirst, hy, List.find?_cons, hy']
    · by_cases hy' : (y.id == uid') = true <;>
        simp [addScoreToFirst, hy, List.find?_cons, hy', ih]

/-- Zeroing every score commutes with looking a user up by id. -/
lemma find?_map_zeroScore (l : List Player) (uid : String) :
    (l.map (fun p => { p with score := 0 })).find? (fun p => p.id == uid)
      = (l.find? (fun p => p.id == uid)).map (fun p => { p with score := 0 }) := by
  induction l with
  | nil => rfl
  | cons x xs ih =>
    by_cases hx : (x.id == uid) = true <;>
      simp [List.find?_cons, hx, ih]

/-- Zeroing every score twice is the same as once. -/
lemma map_map_zeroScore (l : List Player) :
    (l.map (fun p : Player => { p with score := 0 })).map
        (fun p : Player => { p with score := 0 })
      = l.map (fun p : Player => { p with score := 0 }) := by
  rw [List.map_map]
  rfl

/-! ## Concrete rooms used by the witnesses and counterexamples -/

/-- A host with a nonzero score. -/
def exAlice : Player := ⟨"alice", "Alice", true, 5⟩

/-- A non-host with a nonzero score. -/
def exBob : Player := ⟨"bob", "Bob", false, 3⟩

/-- `exBob` promoted to host (what remains after `exAlice` leaves). -/
def exBobHost : Player := ⟨"bob", "Bob", true, 3⟩

/-- A two-player room mid-game (round 1 of 3, Alice drawing). -/
def exRoomTwo : Room :=
  { users := [exAlice, exBob], gameStarted := true, gamePhase := "drawing",
    rounds := 3, currentRound := 1, currentDrawer := some "alice",
    currentWord := some "cat", wordOptions := none,
    roundStartTime := none, roundEndTime := none,
    maxPlayers := 10, roundDuration := 60 }

/-- A three-player room `[A, B, C]` mid-game with `currentDrawer = b`. -/
def exRoomABC : Room :=
  { users := [⟨"a", "A", true, 0⟩, ⟨"b", "B", false, 0⟩, ⟨"c", "C", false, 0⟩],
    gameStarted := true, gamePhase := "drawing", rounds := 3, currentRound := 1,
    currentDrawer := some "b", currentWord := some "cat", wordOptions := none,
    roundStartTime := none, roundEndTime := none,
    maxPlayers := 10, roundDuration := 60 }

/-- `exRoomABC` in drawing phase on the hard word `democracy`. -/
def exRoomGuess : Room :=
  { exRoomABC with currentWord := some "democracy" }

/-- `exRoomABC` on its final round. -/
def exRoomLast : Room := { exRoomABC with currentRound := 3 }

/-- `exRoomABC` during word selection, with three word options. -/
def exRoomSelect : Room :=
  { exRoomABC with
    gamePhase := "word-selection",
    currentWord := none,
    wordOptions := some ["cat", "dog", "sun"] }

/-- A one-player room in the lobby. -/
def exRoomOne : Room :=
  { exRoomABC with
    users := [⟨"a", "A", true, 0⟩],
    gameStarted := false,
    gamePhase := "waiting",
    currentDrawer := none,
    currentWord := none }

/-- A room whose stored `currentWord` carries a trailing space. -/
def exRoomPaddedWord : Room :=
  { exRoomABC with currentWord := some "cat " }

/-- Three players with scores `[100, 100, 50]`. -/
def exUsersTie : List Player :=
  [⟨"u1", "Player1", true, 100⟩, ⟨"u2", "Player2", false, 100⟩,
   ⟨"u3", "Player3", false, 50⟩]

/-! ## Claims -/

/-- C1 (counterexample): in a room with `gameStarted = true` and exactly 2
players, removing one player does force a game end and does not delete
the room, but the emitted winners list is the *remaining player* (here
Bob with his score of 3, promoted to host), not the sentinel entry with
nickname `No one` and score 0: the sentinel branch requires zero
remaining players, which is unreachable because a room emptied by the
departure is deleted instead. -/
theorem leaveRoom_twoPlayers_no_sentinel_cex :
    exRoomTwo.gameStarted = true ∧
    exRoomTwo.users.length = 2 ∧
    handleLeaveRoom exRoomTwo "alice"
      = .forcedEnd (clearedGameEnd exRoomTwo [exBobHost])
          (calculateFinalRankings [exBobHost]) ∧
    (calculateFinalRankings [exBobHost]).winners = [exBobHost] ∧
    exBobHost.nickname ≠ "No one" ∧
    exBobHost.score ≠ 0 ∧
    handleLeaveRoom exRoomTwo "alice" ≠ .deleted := by
  decide

/-- C1 (amended): for every room with `gameStarted = true` and exactly 2
players with distinct ids, removing either player transitions the room to
`gamePhase = 'game-end'`, does **not** delete the room (one player
remains), and the emitted winners list is exactly the single remaining
player (host-promoted if the leaver was host), not the `No one`
sentinel. -/
theorem leaveRoom_twoPlayers_forcedEnd (room : Room) (a b : Player) (uid : String)
    (hu : room.users = [a, b]) (hg : room.gameStarted = true)
    (hab : a.id ≠ b.id) (huid : uid = a.id ∨ uid = b.id) :
    ∃ rem stored rk,
      handleLeaveRoom room uid = .forcedEnd stored rk ∧
      stored.users = [rem] ∧
      stored.gamePhase = "game-end" ∧
      stored.gameStarted = false ∧
      rk.winners = [rem] ∧
      rk.finalScores = [rem] ∧
      rem.id = (if uid = a.id then b.id else a.id) := by
  rcases huid with h | h <;> subst h
  · refine ⟨promotedRemainder a b, clearedGameEnd room [promotedRemainder a b],
      calculateFinalRankings [promotedRemainder a b],
      ?_, ?_, rfl, rfl, ?_, ?_, ?_⟩ <;>
      by_cases hh : a.isHost = true <;>
      simp_all [handleLeaveRoom, removeFirst, promoteHost, promotedRemainder,
        clearedGameEnd, calculateFinalRankings, sortByScoreDesc]
  · refine ⟨promotedRemainder b a, clearedGameEnd room [promotedRemainder b a],
      calculateFinalRankings [promotedRemainder b a],
      ?_, ?_, rfl, rfl, ?_, ?_, ?_⟩ <;>
      by_cases hh : b.isHost = true <;>
      simp_all [handleLeaveRoom, removeFirst, promoteHost, promotedRemainder,
        clearedGameEnd, calculateFinalRankings, sortByScoreDesc]

/-- C1 (witness): the amended statement at the concrete two-player room. -/
theorem leaveRoom_twoPlayers_forcedEnd_witness :
    ∃ rem stored rk,
      handleLeaveRoom exRoomTwo "alice" = .forcedEnd stored rk ∧
      stored.users = [rem] ∧
      stored.gamePhase = "game-end" ∧
      stored.gameStarted = false ∧
      rk.winners = [rem] ∧
      rk.finalScores = [rem] ∧
      rem.id = (if "alice" = exAlice.id then exBob.id else exAlice.id) :=
  leaveRoom_twoPlayers_forcedEnd exRoomTwo exAlice exBob "alice"
    rfl rfl (by decide) (Or.inl rfl)

/-- C2: in EndRound's non-final branch, when the current drawer sits at
index `i` of `users`, the round counter is incremented and the new drawer
is the player at index `(i + 1) % users.length` — the next player in
join order, wrapping circularly. -/
theorem endRound_rotates_drawer (room : Room) (i : Nat)
    (hlast : room.currentRound < room.rounds)
    (hi : room.users.findIdx? (fun u => room.currentDrawer == some u.id) = some i) :
    ∃ nextDrawer r,
      room.users.get? ((i + 1) % room.users.length) = some nextDrawer ∧
      handleEndRound room = some (r, .newRound nextDrawer.id) ∧
      r.currentDrawer = some nextDrawer.id ∧
      r.currentRound = room.currentRound + 1 := by
  have hilt : i < room.users.length :=
    (List.findIdx?_eq_some_iff_findIdx_eq.mp hi).1
  have hlen : 0 < room.users.length := Nat.lt_of_le_of_lt (Nat.zero_le i) hilt
  have hklt : (i + 1) % room.users.length < room.users.length := Nat.mod_lt _ hlen
  obtain ⟨nd, hnd⟩ : ∃ nd, room.users.get? ((i + 1) % room.users.length) = some nd :=
    ⟨_, List.get?_eq_get hklt⟩
  refine ⟨nd, ({ room with currentRound := room.currentRound + 1, gamePhase := "word-selection", currentWord := none, wordOptions := none, roundStartTime := none, roundEndTime := none, currentDrawer := some nd.id }), hnd, ?_, rfl, rfl⟩
  simp only [handleEndRound, if_neg (not_le.mpr hlast), hi]
  have htoNat : ((i : Int) + 1).toNat = i + 1 := by omega
  simp only [htoNat, hnd]

/-- C2 (witness): with players `[A, B, C]`, drawer `b` rotates to `c`,
and drawer `c` wraps to `a`; the general statement applied at index 1. -/
theorem endRound_rotates_drawer_witness :
    ((handleEndRound exRoomABC).map (fun p => p.1.currentDrawer) = some (some "c") ∧
      (handleEndRound { exRoomABC with currentDrawer := some "c" }).map
          (fun p => p.1.currentDrawer) = some (some "a")) ∧
    (∃ nextDrawer r,
      exRoomABC.users.get? ((1 + 1) % exRoomABC.users.length) = some nextDrawer ∧
      handleEndRound exRoomABC = some (r, .newRound nextDrawer.id) ∧
      r.currentDrawer = some nextDrawer.id ∧
      r.currentRound = exRoomABC.currentRound + 1) :=
  ⟨by decide, endRound_rotates_drawer exRoomABC 1 (by decide) (by decide)⟩

/-- C3: for every non-empty player list, `calculateFinalRankings` returns
`finalScores` that are a permutation of the input sorted by descending
score, and `winners` is exactly the set of players attaining the maximum
score. -/
theorem calculateFinalRankings_sorted_winners (users : List Player) (h : users ≠ []) :
    (calculateFinalRankings users).finalScores.Perm users ∧
    (calculateFinalRankings users).finalScores.Sorted scoreDescRel ∧
    ∀ p, p ∈ (calculateFinalRankings users).winners ↔
      p ∈ users ∧ ∀ q ∈ users, q.score ≤ p.score := by
  refine ⟨sortByScoreDesc_perm users, sortByScoreDesc_sorted users, ?_⟩
  intro p
  have hperm := sortByScoreDesc_perm users
  have hsorted := sortByScoreDesc_sorted users
  obtain ⟨u0, rest, heq⟩ : ∃ u0 rest, sortByScoreDesc users = u0 :: rest := by
    rcases hs : sortByScoreDesc users with _ | ⟨u0, rest⟩
    · exact absurd ((hs ▸ hperm).symm.eq_nil) h
    · exact ⟨u0, rest, rfl⟩
  have hmax : ∀ q ∈ users, q.score ≤ u0.score := by
    intro q hq
    exact head_score_max (heq ▸ hsorted) q (heq ▸ hperm.symm.subset hq)
  have hu0 : u0 ∈ users := hperm.subset (heq ▸ List.mem_cons_self u0 rest)
  have hwinners : (calculateFinalRankings users).winners
      = (sortByScoreDesc users).filter (fun u => u.score == u0.score) := by
    simp only [calculateFinalRankings, heq]
  rw [hwinners, List.mem_filter]
  constructor
  · rintro ⟨hp, hpe⟩
    have hpe' : p.score = u0.score := by simpa using hpe
    exact ⟨hperm.subset hp, fun q hq => hpe' ▸ hmax q hq⟩
  · rintro ⟨hp, hq⟩
    refine ⟨hperm.symm.subset hp, ?_⟩
    have heqs : p.score = u0.score := le_antisymm (hmax p hp) (hq u0 hu0)
    simpa using heqs

/-- C3 (witness): scores `[100, 100, 50]` give the two 100-point players
as winners and `finalScores` sorted `[100, 100, 50]`; the general
statement applied to that list. -/
theorem calculateFinalRankings_sorted_winners_witness :
    ((calculateFinalRankings exUsersTie).winners.map (fun w => w.nickname)
        = ["Player1", "Player2"] ∧
      (calculateFinalRankings exUsersTie).finalScores.map (fun w => w.score)
        = [100, 100, 50]) ∧
    ((calculateFinalRankings exUsersTie).finalScores.Perm exUsersTie ∧
      (calculateFinalRankings exUsersTie).finalScores.Sorted scoreDescRel ∧
      ∀ p, p ∈ (calculateFinalRankings exUsersTie).winners ↔
        p ∈ exUsersTie ∧ ∀ q ∈ exUsersTie, q.score ≤ p.score) :=
  ⟨by decide, calculateFinalRankings_sorted_winners exUsersTie (by decide)⟩

/-- C4: RestartGame is idempotent for a host actor: the first call
succeeds with the fully reset room, and a second call on that reset room
succeeds and returns the very same state (the guard re-checks only host
identity, which the reset preserves). -/
theorem restartGame_idempotent (room : Room) (uid : String) (u : Player)
    (hfind : room.users.find? (fun p => p.id == uid) = some u)
    (hhost : u.isHost = true) :
    ∃ r1, handleRestartGame room uid = .ok r1 ∧ handleRestartGame r1 uid = .ok r1 := by
  refine ⟨({ room with gameStarted := false, gamePhase := "waiting", currentRound := 0, rounds := 3, currentDrawer := none, currentWord := none, wordOptions := none, roundStartTime := none, roundEndTime := none, maxPlayers := 10, roundDuration := 60, users := room.users.map (fun p => { p with score := 0 }) }), ?_, ?_⟩
  · simp [handleRestartGame, hfind, hhost]
  · simp only [handleRestartGame, find?_map_zeroScore, hfind, Option.map_some]
    simp [hhost, map_map_zeroScore]

/-- C4 (witness): the idempotence statement at the concrete two-player
room with host Alice. -/
theorem restartGame_idempotent_witness :
    ∃ r1, handleRestartGame exRoomTwo "alice" = .ok r1 ∧
      handleRestartGame r1 "alice" = .ok r1 :=
  restartGame_idempotent exRoomTwo "alice" exAlice (by decide) rfl

/-- C5: a correct guess awards `calculateWordPoints(currentWord)` to the
guesser and `floor(points / 2)` to the drawer, where the points are 10
for an easy-tier word, 15 for medium, 25 for hard and 10 for a word in
no tier. -/
theorem correctGuess_scoring (room : Room) (uid did w : String) (g d : Player)
    (_hphase : room.gamePhase = "drawing")
    (hword : room.currentWord = some w)
    (hdrawer : room.currentDrawer = some did)
    (hne : uid ≠ did)
    (hg : room.users.find? (fun u => u.id == uid) = some g)
    (hd : room.users.find? (fun u => u.id == did) = some d) :
    ∃ r, handleCorrectGuess room uid = some r ∧
      scoreOf r.users uid = some (g.score + calculateWordPoints w) ∧
      scoreOf r.users did = some (d.score + calculateWordPoints w / 2) ∧
      (getWordDifficulty w = "easy" → calculateWordPoints w = 10) ∧
      (getWordDifficulty w = "medium" → calculateWordPoints w = 15) ∧
      (getWordDifficulty w = "hard" → calculateWordPoints w = 25) ∧
      (getWordDifficulty w = "unknown" → calculateWordPoints w = 10) := by
  refine ⟨({ room with users := addScoreToFirst (addScoreToFirst room.users uid (calculateWordPoints w)) did (calculateWordPoints w / 2) }), ?_, ?_, ?_, ?_, ?_, ?_, ?_⟩
  · simp [handleCorrectGuess, hg, hword, hdrawer]
  · simp only [scoreOf]
    rw [find?_addScoreToFirst_ne (Ne.symm (fun hc => hne hc.symm)) _]
    rw [find?_addScoreToFirst_self _ hg]
    rfl
  · simp only [scoreOf]
    rw [find?_addScoreToFirst_self _
      (by rw [find?_addScoreToFirst_ne (Ne.symm hne) _]; exact hd)]
    rfl
  · intro h; simp [calculateWordPoints, h]
  · intro h; simp [calculateWordPoints, h]
  · intro h; simp [calculateWordPoints, h]
  · intro h; simp [calculateWordPoints, h]

/-- C5 (witness): on the hard word `democracy` the guesser `a` (score 0)
ends at 25 and the drawer `b` (score 0) ends at `floor(25/2) = 12`; the
general statement applied at that room. -/
theorem correctGuess_scoring_witness :
    ((handleCorrectGuess exRoomGuess "a").map
        (fun r => (scoreOf r.users "a", scoreOf r.users "b"))
      = some (some 25, some 12) ∧
      getWordDifficulty "democracy" = "hard") ∧
    (∃ r, handleCorrectGuess exRoomGuess "a" = some r ∧
      scoreOf r.users "a" = some (0 + calculateWordPoints "democracy") ∧
      scoreOf r.users "b" = some (0 + calculateWordPoints "democracy" / 2) ∧
      (getWordDifficulty "democracy" = "easy" → calculateWordPoints "democracy" = 10) ∧
      (getWordDifficulty "democracy" = "medium" → calculateWordPoints "democracy" = 15) ∧
      (getWordDifficulty "democracy" = "hard" → calculateWordPoints "democracy" = 25) ∧
      (getWordDifficulty "democracy" = "unknown" → calculateWordPoints "democracy" = 10)) :=
  ⟨by decide,
   correctGuess_scoring exRoomGuess "a" "b" "democracy" ⟨"a", "A", true, 0⟩ ⟨"b", "B", false, 0⟩
     rfl rfl rfl (by decide) (by decide) (by decide)⟩

/-- C6 (counterexample): the code trims only the guess, not the stored
word.  With `currentWord = "cat "` (trailing space) and the non-drawer
guess `"cat"` in drawing phase, the spec's symmetric case-insensitive
whitespace-trimmed comparison deems the guess correct, but `checkGuess`
reports it incorrect and `handleGuessWord` relays it as an ordinary chat
message. -/
theorem guess_trimming_cex :
    specGuessCorrect "cat" "cat " = true ∧
    exRoomPaddedWord.gamePhase = "drawing" ∧
    exRoomPaddedWord.gameStarted = true ∧
    exRoomPaddedWord.currentWord = some "cat " ∧
    exRoomPaddedWord.currentDrawer ≠ some "a" ∧
    (checkGuess exRoomPaddedWord "a" "cat").isCorrect = false ∧
    handleGuessWord exRoomPaddedWord "a" "cat" = .chat := by
  decide

/-- C6 (amended): a guess is a no-op whenever the guesser is the current
drawer or the phase is not `drawing`; otherwise (game started, guesser
present, non-empty guess) it counts as correct exactly when the guess,
lowercased and trimmed, equals the lowercased — but *untrimmed* — stored
`currentWord`. -/
theorem handleGuess_noop_and_correctness (room : Room) (uid g : String) :
    ((room.currentDrawer = some uid ∨ room.gamePhase ≠ "drawing") →
      handleGuessWord room uid g = .noop ∧ (checkGuess room uid g).isCorrect = false) ∧
    (∀ w, room.currentDrawer ≠ some uid → room.gamePhase = "drawing" →
      room.gameStarted = true → room.currentWord = some w →
      ((checkGuess room uid g).isCorrect = true ↔ jsTrim (jsToLower g) = jsToLower w)) ∧
    (∀ w u, room.currentDrawer ≠ some uid → room.gamePhase = "drawing" →
      room.currentWord = some w → g ≠ "" →
      room.users.find? (fun p => p.id == uid) = some u →
      ((∃ r, handleGuessWord room uid g = .correct r) ↔
        jsTrim (jsToLower g) = jsToLower w)) := by
  refine ⟨?_, ?_, ?_⟩
  · rintro (h | h)
    · refine ⟨by simp [handleGuessWord, h], ?_⟩
      simp only [checkGuess, h]
      split <;> simp
    · refine ⟨by simp [handleGuessWord, h], ?_⟩
      simp [checkGuess, h]
  · intro w hnd hph hgs hw
    simp [checkGuess, hph, hgs, hw, hnd, beq_iff_eq]
  · intro w u hnd hph hw hg hu
    by_cases hc : (jsTrim (jsToLower g) == jsToLower w) = true
    · simp [handleGuessWord, hg, hph, hw, hu, hc, hnd, beq_iff_eq.mp hc]
    · have hc2 : ¬ (jsTrim (jsToLower g) = jsToLower w) :=
        fun he => hc (beq_iff_eq.mpr he)
      simp [handleGuessWord, hg, hph, hw, hu, hc, hnd, hc2]

/-- C6 (witness): the drawer's own guess is a no-op, and a padded
upper-case guess of `democracy` by a non-drawer is correct, at the
concrete room. -/
theorem handleGuess_noop_and_correctness_witness :
    (handleGuessWord exRoomGuess "b" "democracy" = .noop ∧
      (checkGuess exRoomGuess "b" "democracy").isCorrect = false) ∧
    ((checkGuess exRoomGuess "a" " DEMOCRACY ").isCorrect = true ↔
      jsTrim (jsToLower " DEMOCRACY ") = jsToLower "democracy") ∧
    ((∃ r, handleGuessWord exRoomGuess "a" " DEMOCRACY " = .correct r) ↔
      jsTrim (jsToLower " DEMOCRACY ") = jsToLower "democracy") :=
  ⟨(handleGuess_noop_and_correctness exRoomGuess "b" "democracy").1 (Or.inl rfl),
   (handleGuess_noop_and_correctness exRoomGuess "a" " DEMOCRACY ").2.1
     "democracy" (by decide) rfl rfl rfl,
   (handleGuess_noop_and_correctness exRoomGuess "a" " DEMOCRACY ").2.2
     "democracy" ⟨"a", "A", true, 0⟩ (by decide) rfl rfl (by decide) (by decide)⟩

/-- C7: when the actor is the current drawer and the word is not an
exact, case-sensitive member of `wordOptions` (or `wordOptions` is
absent), SelectWord fails with `InvalidSelection`, delivered to the
acting connection only, and the persisted room is unchanged — in
particular `currentWord` stays unset and the phase does not advance. -/
theorem selectWord_invalid_rejected (room : Room) (uid w : String) (now : Int)
    (hdrawer : room.currentDrawer = some uid)
    (hnot : ∀ opts, room.wordOptions = some opts → w ∉ opts) :
    handleSelectWord room uid w now = .error .invalidSelection ∧
    selectWordStored room uid w now = room := by
  have h1 : handleSelectWord room uid w now = .error .invalidSelection := by
    by_cases hw0 : (w == "") = true
    · simp [handleSelectWord, hw0]
    · rcases hopts : room.wordOptions with _ | opts
      · simp [handleSelectWord, hw0, hdrawer, hopts]
      · simp only [handleSelectWord, hw0, hdrawer, hopts]
        simp
        exact hnot opts hopts
  exact ⟨h1, by simp [selectWordStored, h1]⟩

/-- C7 (witness): the drawer picking `tiger`, which is not among the
offered options `[cat, dog, sun]`, is rejected and nothing changes. -/
theorem selectWord_invalid_rejected_witness :
    handleSelectWord exRoomSelect "b" "tiger" 1000 = .error .invalidSelection ∧
    selectWordStored exRoomSelect "b" "tiger" 1000 = exRoomSelect :=
  selectWord_invalid_rejected exRoomSelect "b" "tiger" 1000 rfl (by
    intro opts h
    have h2 : ["cat", "dog", "sun"] = opts := Option.some.inj h
    subst h2
    decide)

/-- C8: StartGame by the host of a room with fewer than 2 players fails
with `InsufficientPlayers`; the persisted room is unchanged, so
`gameStarted` stays `false` when it was `false` and no drawer is
selected. -/
theorem startGame_insufficient_players (room : Room) (uid : String) (u : Player)
    (data : StartData) (ridx : Nat)
    (hfind : room.users.find? (fun p => p.id == uid) = some u)
    (hhost : u.isHost = true)
    (hlt : room.users.length < 2) :
    handleStartGame room uid data ridx = .error .insufficientPlayers ∧
    startGameStored room uid data ridx = room ∧
    (room.gameStarted = false → (startGameStored room uid data ridx).gameStarted = false) := by
  have h1 : handleStartGame room uid data ridx = .error .insufficientPlayers := by
    simp [handleStartGame, hfind, hhost, hlt]
  refine ⟨h1, by simp [startGameStored, h1], fun hf => by simp [startGameStored, h1, hf]⟩

/-- C8 (witness): the host of a one-player waiting room cannot start the
game. -/
theorem startGame_insufficient_players_witness :
    handleStartGame exRoomOne "a" ⟨none, none, none⟩ 0 = .error .insufficientPlayers ∧
    startGameStored exRoomOne "a" ⟨none, none, none⟩ 0 = exRoomOne ∧
    (exRoomOne.gameStarted = false →
      (startGameStored exRoomOne "a" ⟨none, none, none⟩ 0).gameStarted = false) :=
  startGame_insufficient_players exRoomOne "a" ⟨"a", "A", true, 0⟩ ⟨none, none, none⟩ 0
    (by decide) rfl (by decide)

/-- C9: `calculateFinalRankings` sorts its input in place
(`finalScores` *is* the sorted `users` array), so both game-end paths
persist the room with `users` replaced by the score-descending sort: the
final-round EndRound branch and the insufficient-players leave branch
both store a `users` sequence sorted by descending score, which in
general differs from join order (concrete reordering exhibited). -/
theorem gameEnd_persists_score_sorted_users :
    (∀ users : List Player,
      (calculateFinalRankings users).finalScores = sortByScoreDesc users) ∧
    (∀ room r o, room.rounds ≤ room.currentRound →
      handleEndRound room = some (r, o) →
      r.users = sortByScoreDesc room.users ∧ r.users.Sorted scoreDescRel) ∧
    (∀ room uid stored rk, handleLeaveRoom room uid = .forcedEnd stored rk →
      stored.users = rk.finalScores ∧ stored.users.Sorted scoreDescRel) ∧
    sortByScoreDesc [⟨"a", "A", true, 1⟩, ⟨"b", "B", false, 2⟩] ≠
      [⟨"a", "A", true, 1⟩, ⟨"b", "B", false, 2⟩] := by
  refine ⟨fun users => rfl, ?_, ?_, by decide⟩
  · intro room r o hlast h
    unfold handleEndRound at h
    rw [if_pos hlast] at h
    simp only [Option.some.injEq, Prod.mk.injEq] at h
    obtain ⟨h1, _⟩ := h
    subst h1
    exact ⟨rfl, sortByScoreDesc_sorted room.users⟩
  · intro room uid stored rk h
    simp only [handleLeaveRoom] at h
    split at h
    · cases h
    · split at h
      · cases h
      · split at h
        · split at h
          · cases h
            exact ⟨rfl, sortByScoreDesc_sorted _⟩
          · cases h
            rename_i hlen
            have : _ = ([] : List Player) :=
              List.length_eq_zero.mp (Nat.eq_zero_of_not_pos hlen)
            simp [this, clearedGameEnd]
        · cases h

/-- C9 (witness): the in-place-sort aliasing at the tie list, the
final-round branch at a concrete last-round room, and the leave branch at
the concrete two-player room. -/
theorem gameEnd_persists_score_sorted_users_witness :
    ((calculateFinalRankings exUsersTie).finalScores = sortByScoreDesc exUsersTie) ∧
    ({ exRoomLast with gamePhase := "game-end", gameStarted := false, users := sortByScoreDesc exRoomLast.users }.users = sortByScoreDesc exRoomLast.users ∧
      ({ exRoomLast with gamePhase := "game-end", gameStarted := false, users := sortByScoreDesc exRoomLast.users }).users.Sorted scoreDescRel) ∧
    ((clearedGameEnd exRoomTwo [exBobHost]).users
        = (calculateFinalRankings [exBobHost]).finalScores ∧
      (clearedGameEnd exRoomTwo [exBobHost]).users.Sorted scoreDescRel) :=
  ⟨gameEnd_persists_score_sorted_users.1 exUsersTie,
   gameEnd_persists_score_sorted_users.2.1 exRoomLast
     ({ exRoomLast with gamePhase := "game-end", gameStarted := false, users := sortByScoreDesc exRoomLast.users })
     (.gameEnded (calculateFinalRankings exRoomLast.users)) (by decide) (by decide),
   gameEnd_persists_score_sorted_users.2.2.1 exRoomTwo "alice"
     (clearedGameEnd exRoomTwo [exBobHost]) (calculateFinalRankings [exBobHost])
     (by decide)⟩

/-- C10: in EndRound's non-final branch, when `currentDrawer` matches no
player in a non-empty `users` list, `findIndex` yields `-1`, so the next
drawer index is `(-1 + 1) % length = 0` and the new drawer is the first
player in list order; the operation does not fail. -/
theorem endRound_missing_drawer_first_player (room : Room)
    (hne : room.users ≠ [])
    (hlast : room.currentRound < room.rounds)
    (hmiss : ∀ u ∈ room.users, room.currentDrawer ≠ some u.id) :
    ∃ first r,
      room.users.head? = some first ∧
      handleEndRound room = some (r, .newRound first.id) ∧
      r.currentDrawer = some first.id := by
  have hnone : room.users.findIdx? (fun u => room.currentDrawer == some u.id) = none := by
    rw [List.findIdx?_eq_none_iff]
    intro u hu
    simpa using hmiss u hu
  obtain ⟨first, rest, hcons⟩ := List.exists_cons_of_ne_nil hne
  refine ⟨first, ({ room with currentRound := room.currentRound + 1, gamePhase := "word-selection", currentWord := none, wordOptions := none, roundStartTime := none, roundEndTime := none, currentDrawer := some first.id }), by rw [hcons]; rfl, ?_, rfl⟩
  simp only [handleEndRound, if_neg (not_le.mpr hlast), hnone]
  norm_num
  rw [hcons]
  simp

/-- C10 (witness): a departed drawer `zz` in the `[A, B, C]` room makes
player `a` the next drawer. -/
theorem endRound_missing_drawer_first_player_witness :
    ∃ first r,
      ({ exRoomABC with currentDrawer := some "zz" }).users.head? = some first ∧
      handleEndRound { exRoomABC with currentDrawer := some "zz" }
        = some (r, .newRound first.id) ∧
      r.currentDrawer = some first.id :=
  endRound_missing_drawer_first_player { exRoomABC with currentDrawer := some "zz" }
    (by decide) (by decide) (by decide)

end GameService
